import Mathlib

/-!
Shallow embedding of `src/images/smaa/utils/SMAAImageLoader.js`.

The file models the two functions of the source — the private `generate`
(worker spawn, message/error handlers, localStorage write, blob-URL revoke,
promise settlement) and `SMAAImageLoader.load` (the four `itemStart` calls,
the cache read, the cache-hit/miss split, the image `load` listeners and
`src` assignments, the `onLoad`/`onError`/resolve/reject continuations) —
as deterministic interpreters over an environment that supplies everything
the browser supplies at run time: the `localStorage` contents (or its
absence), whether a store read throws, whether a store write throws, the
`RawImageData.from(..).toCanvas().toDataURL()` conversion, the sequence of
events the spawned worker delivers, and the sequence of native image `load`
events.  Each run yields a trace of observable actions plus the final state
of the returned promise and of the store.

JavaScript conventions captured by the model: a synchronous throw inside a
`new Promise` executor rejects the returned promise; `resolve`/`reject` on
an already settled promise are no-ops; an exception thrown inside an event
listener does not reject any promise — it surfaces as an uncaught error
(recorded here as an `uncaught` trace event); three.js `LoadingManager`
counts `itemStart`/`itemEnd` and fires its `onLoad` callback when the two
counters meet.
-/

namespace SMAA

/-- Fixed localStorage key for the SMAA search image. -/
def KEY_SEARCH : String := "smaa-search"

/-- Fixed localStorage key for the SMAA area image. -/
def KEY_AREA : String := "smaa-area"

/-- The browser localStorage, modelled as an association list of
key/value pairs (most recent write first). -/
abbrev Store := List (String × String)

/-- `localStorage.getItem`: the most recently written value for a key,
or `none` when the key is absent (JavaScript returns `null`). -/
def Store.getItem (s : Store) (k : String) : Option String :=
  (s.find? (fun p => p.1 == k)).map (fun p => p.2)

/-- `localStorage.setItem`: write a value under a key, replacing any
previous entry for that key. -/
def Store.setItem (s : Store) (k v : String) : Store :=
  (k, v) :: s.filter (fun p => p.1 != k)

/-- Observable actions of one `load()` run, in program order.
`extStart`/`extEnd`/`extError` are `itemStart`/`itemEnd`/`itemError` on the
caller-supplied `LoadingManager`; the `int` variants are the same calls on
the internal `LoadingManager` created by `load`.  `createURL`, `spawnWorker`,
`postMsg`, `setItem`, `revokeURL`, `terminateWorker` are the worker-side
operations of `generate` (the source never emits `terminateWorker`; the
constructor exists so that its absence is statable).  `srcSearch`/`srcArea`
are the assignments to `result.search.src` / `result.area.src`;
`genResolve`/`genReject` are the effective settlements of the promise
returned by `generate`; `onLoadCb`/`onErrorCb` are the invocations of the
caller's callbacks; `uncaught` is an exception escaping an event listener. -/
inductive Ev where
  | extStart (k : String)
  | extEnd (k : String)
  | extError (k : String)
  | intStart (k : String)
  | intEnd (k : String)
  | intError (k : String)
  | createURL
  | spawnWorker
  | postMsg
  | setItem (k v : String)
  | revokeURL
  | terminateWorker
  | srcSearch (url : String)
  | srcArea (url : String)
  | genResolve
  | genReject (e : String)
  | onLoadCb (searchSrc areaSrc : Option String)
  | onErrorCb (e : String)
  | uncaught (e : String)
  deriving DecidableEq, Repr

/-- One event delivered by the spawned worker: a result message carrying
the two raw pixel buffers (opaque, modelled as naturals), or an error
event carrying `event.error`. -/
inductive WEvent where
  | message (searchData areaData : Nat)
  | error (e : String)
  deriving DecidableEq, Repr

/-- One native image `load` event: the search image or the area image
finished loading. -/
inductive ImgEvent where
  | searchLoad
  | areaLoad
  deriving DecidableEq, Repr

/-- The externally visible result of `load()`: the two `Image` objects,
identified by their `src` attributes (`none` before assignment). -/
structure ImgPair where
  searchSrc : Option String
  areaSrc : Option String
  deriving DecidableEq, Repr

/-- State of the promise returned by `load()`. -/
inductive PromiseState where
  | pending
  | resolved (r : ImgPair)
  | rejected (e : String)
  deriving DecidableEq, Repr

/-- Everything the browser environment supplies to one `load()` run. -/
structure Env where
  /-- `this.disableCache` at call time. -/
  disableCache : Bool
  /-- `window.localStorage` (`none` models `undefined`). -/
  store : Option Store
  /-- When `some e`, `localStorage.getItem` throws `e` synchronously. -/
  readFault : Option String
  /-- When `some e`, `localStorage.setItem` throws `e` synchronously. -/
  writeFault : Option String
  /-- `RawImageData.from(buf).toCanvas().toDataURL()`: a pure, deterministic
  conversion from a raw buffer to a data URL. -/
  encode : Nat → String
  /-- Events the spawned worker delivers, in order. -/
  workerEvents : List WEvent
  /-- Native image `load` events fired after the `src` assignments. -/
  imageEvents : List ImgEvent

/-- A well-behaved environment: each native image fires its one-shot
`load` event at most once (collaborator contract of the native image). -/
def Env.wf (env : Env) : Prop :=
  env.imageEvents.count ImgEvent.searchLoad ≤ 1 ∧
  env.imageEvents.count ImgEvent.areaLoad ≤ 1

/-- State threaded through the worker-event handlers of one `generate`
call: the store, the settlement of the promise returned by `generate`
(`none` while pending; settlement is recorded once, later `resolve` /
`reject` calls are no-ops), and the trace so far. -/
structure GenSt where
  store : Option Store
  settled : Option (Except String (String × String))
  trace : List Ev

/-- `resolve(urls)` inside the message handler: settles the promise with
the pair of data URLs if it is still pending, otherwise does nothing. -/
def resolveOnce (st : GenSt) (u1 u2 : String) : GenSt :=
  match st.settled with
  | some _ => st
  | none => { st with settled := some (Except.ok (u1, u2)),
                      trace := st.trace ++ [Ev.genResolve] }

/-- The two listeners registered by `generate` on the worker.  An `error`
event runs `reject(event.error)` and nothing else — the blob URL is not
revoked and the worker is not terminated on this path.  A `message` event
converts both buffers, writes both keys to localStorage when caching is on
and the store exists (a throwing `setItem` aborts the handler and surfaces
as an uncaught listener exception), revokes the blob URL, and resolves. -/
def handleWorkerEvent (disableCache : Bool) (writeFault : Option String)
    (encode : Nat → String) (st : GenSt) : WEvent → GenSt
  | WEvent.error e =>
      match st.settled with
      | some _ => st
      | none => { st with settled := some (Except.error e),
                          trace := st.trace ++ [Ev.genReject e] }
  | WEvent.message sd ad =>
      let u1 := encode sd
      let u2 := encode ad
      if !disableCache && st.store.isSome then
        match writeFault with
        | some f => { st with trace := st.trace ++ [Ev.uncaught f] }
        | none =>
            resolveOnce
              { st with
                store := st.store.map
                  (fun s => (s.setItem KEY_SEARCH u1).setItem KEY_AREA u2),
                trace := st.trace ++
                  [Ev.setItem KEY_SEARCH u1, Ev.setItem KEY_AREA u2,
                   Ev.revokeURL] }
              u1 u2
      else
        resolveOnce { st with trace := st.trace ++ [Ev.revokeURL] } u1 u2

/-- One `generate(disableCache)` call: create the blob URL, spawn the
worker, register the listeners, post the trigger message, then let the
worker's events drive the handlers. -/
def generateRun (disableCache : Bool) (store : Option Store)
    (writeFault : Option String) (encode : Nat → String)
    (events : List WEvent) : GenSt :=
  events.foldl (handleWorkerEvent disableCache writeFault encode)
    { store := store, settled := none,
      trace := [Ev.createURL, Ev.spawnWorker, Ev.postMsg] }

/-- The result object of one `load()` call after both `src` assignments. -/
def resultPair (u1 u2 : String) : ImgPair :=
  { searchSrc := some u1, areaSrc := some u2 }

/-- State threaded through the image `load` listeners: the internal
manager's `itemsLoaded` counter (its `itemsTotal` is 2 after the two
`itemStart` calls), the outer promise, and the trace so far. -/
structure ThenSt where
  loaded : Nat
  promise : PromiseState
  trace : List Ev

/-- The body shared by the two image `load` listeners: `itemEnd` on the
external manager then on the internal manager; when the internal manager's
counters meet it fires its `onLoad`, which invokes the caller's `onLoad`
with the result and resolves the outer promise with the same result. -/
def stepEnd (r : ImgPair) (st : ThenSt) (k : String) : ThenSt :=
  let st' := { st with loaded := st.loaded + 1,
                       trace := st.trace ++ [Ev.extEnd k, Ev.intEnd k] }
  if st'.loaded = 2 then
    { st' with
      trace := st'.trace ++ [Ev.onLoadCb r.searchSrc r.areaSrc],
      promise := match st'.promise with
                 | PromiseState.pending => PromiseState.resolved r
                 | p => p }
  else st'

/-- Dispatch of a native image `load` event to the listener registered on
that image. -/
def handleImageEvent (r : ImgPair) (st : ThenSt) : ImgEvent → ThenSt
  | ImgEvent.searchLoad => stepEnd r st KEY_SEARCH
  | ImgEvent.areaLoad => stepEnd r st KEY_AREA

/-- The fulfillment continuation of `load()` (the `promise.then` handler):
register the two `load` listeners, assign `result.search.src` then
`result.area.src`, then let the native image events drive the listeners. -/
def thenRun (u1 u2 : String) (events : List ImgEvent) : ThenSt :=
  events.foldl (handleImageEvent (resultPair u1 u2))
    { loaded := 0, promise := PromiseState.pending,
      trace := [Ev.srcSearch u1, Ev.srcArea u2] }

/-- Outcome of one `load()` run. -/
structure LoadOutcome where
  trace : List Ev
  promise : PromiseState
  finalStore : Option Store
  deriving DecidableEq, Repr

/-- The cache read of `load()` (lines 119–122): skipped entirely when
`disableCache` is set or `window.localStorage` is `undefined`; otherwise
two `getItem` calls, which throw when the store read faults. -/
def cacheRead (env : Env) : Except String (Option String × Option String) :=
  if env.disableCache then Except.ok (none, none)
  else
    match env.store with
    | none => Except.ok (none, none)
    | some s =>
        match env.readFault with
        | some e => Except.error e
        | none => Except.ok (s.getItem KEY_SEARCH, s.getItem KEY_AREA)

/-- The four `itemStart` calls at the top of `load()`, in source order. -/
def startEvents : List Ev :=
  [Ev.extStart KEY_SEARCH, Ev.extStart KEY_AREA,
   Ev.intStart KEY_SEARCH, Ev.intStart KEY_AREA]

/-- The `generate(this.disableCache)` call made by `load()` on a cache
miss, with the environment's collaborators plugged in. -/
def genOf (env : Env) : GenSt :=
  generateRun env.disableCache env.store env.writeFault env.encode
    env.workerEvents

/-- The cache-miss path of `load()`: run `generate` and feed its first
settlement to the `.then` handler (success) or to the `.catch` handler,
which calls `itemError` twice on the external manager only, then
`onError`, then rejects the returned promise. -/
def missRun (env : Env) : LoadOutcome :=
  let g := genOf env
  match g.settled with
  | none =>
      { trace := startEvents ++ g.trace,
        promise := PromiseState.pending, finalStore := g.store }
  | some (Except.ok (u1, u2)) =>
      let st := thenRun u1 u2 env.imageEvents
      { trace := startEvents ++ g.trace ++ st.trace,
        promise := st.promise, finalStore := g.store }
  | some (Except.error e) =>
      { trace := startEvents ++ g.trace ++
          [Ev.extError KEY_SEARCH, Ev.extError KEY_AREA,
           Ev.onErrorCb e],
        promise := PromiseState.rejected e, finalStore := g.store }

/-- One `SMAAImageLoader.load` call.  A throwing cache read rejects the
returned promise from inside the executor — the `.then`/`.catch` chain is
never attached, so no tracker error calls and no `onError` happen on that
path.  A cache hit (both keys non-null) feeds the cached strings to the
fulfillment continuation without calling `generate`; a miss delegates to
`missRun`. -/
def load (env : Env) : LoadOutcome :=
  match cacheRead env with
  | Except.error e =>
      { trace := startEvents, promise := PromiseState.rejected e,
        finalStore := env.store }
  | Except.ok (some u1, some u2) =>
      let st := thenRun u1 u2 env.imageEvents
      { trace := startEvents ++ st.trace, promise := st.promise,
        finalStore := env.store }
  | Except.ok (none, _) => missRun env
  | Except.ok (some _, none) => missRun env

/-- The data-URL conversion used by the concrete test environments. -/
def encName : Nat → String := fun n => String.append "url" (Nat.repr n)

/-- Cache miss (empty store) and a worker that reports an error. -/
def envC1 : Env :=
  { disableCache := false, store := some [], readFault := none,
    writeFault := none, encode := encName,
    workerEvents := [WEvent.error "E"], imageEvents := [] }

/-- Cache miss, a successful generation and both image load events. -/
def envC1w : Env :=
  { disableCache := false, store := some [], readFault := none,
    writeFault := none, encode := encName,
    workerEvents := [WEvent.message 1 2],
    imageEvents := [ImgEvent.searchLoad, ImgEvent.areaLoad] }

/-- Cache miss (empty store) and a worker that reports an error. -/
def envC2 : Env :=
  { disableCache := false, store := some [], readFault := none,
    writeFault := none, encode := encName,
    workerEvents := [WEvent.error "E"], imageEvents := [] }

/-- Cache hit: both keys present, both image load events fire. -/
def envC3 : Env :=
  { disableCache := false,
    store := some [(KEY_SEARCH, "S"), (KEY_AREA, "A")],
    readFault := none, writeFault := none, encode := encName,
    workerEvents := [], imageEvents := [ImgEvent.searchLoad,
      ImgEvent.areaLoad] }

/-- No persistent store at all; the worker answers with one message. -/
def envC4 : Env :=
  { disableCache := false, store := none, readFault := none,
    writeFault := none, encode := encName,
    workerEvents := [WEvent.message 1 2],
    imageEvents := [ImgEvent.searchLoad, ImgEvent.areaLoad] }

/-- Cache hit: both keys present, both image load events fire. -/
def envC5 : Env :=
  { disableCache := false,
    store := some [(KEY_SEARCH, "S"), (KEY_AREA, "A")],
    readFault := none, writeFault := none, encode := encName,
    workerEvents := [], imageEvents := [ImgEvent.searchLoad,
      ImgEvent.areaLoad] }

/-- Cache miss (empty store) and a worker that reports an error. -/
def envC6 : Env :=
  { disableCache := false, store := some [], readFault := none,
    writeFault := none, encode := encName,
    workerEvents := [WEvent.error "E"], imageEvents := [] }

/-- Cache miss (empty store) and a successful generation. -/
def envC7 : Env :=
  { disableCache := false, store := some [], readFault := none,
    writeFault := none, encode := encName,
    workerEvents := [WEvent.message 1 2], imageEvents := [] }

/-- Caching enabled, store present, but `getItem` throws. -/
def envC8 : Env :=
  { disableCache := false, store := some [(KEY_SEARCH, "x")],
    readFault := some "boom", writeFault := none, encode := encName,
    workerEvents := [], imageEvents := [] }

/-- The events a worker-event handler may append to the trace. -/
def Ev.genStepEv : Ev → Bool
  | Ev.setItem _ _ => true
  | Ev.revokeURL => true
  | Ev.genResolve => true
  | Ev.genReject _ => true
  | Ev.uncaught _ => true
  | _ => false

/-- The events an image-load listener may append to the trace. -/
def Ev.thenStepEv : Ev → Bool
  | Ev.extEnd _ => true
  | Ev.intEnd _ => true
  | Ev.onLoadCb _ _ => true
  | _ => false

theorem foldl_inv {α β : Type} (f : α → β → α) (P : α → Prop)
    (hstep : ∀ st w, P st → P (f st w)) :
    ∀ (evs : List β) (st : α), P st → P (evs.foldl f st) := by
  intro evs
  induction evs with
  | nil => intro st h; exact h
  | cons e rest ih => intro st h; exact ih _ (hstep st e h)

theorem handleWorkerEvent_trace (d : Bool) (wf : Option String)
    (enc : Nat → String) (st : GenSt) (w : WEvent) :
    ∃ δ, (handleWorkerEvent d wf enc st w).trace = st.trace ++ δ ∧
      ∀ x ∈ δ, x.genStepEv = true := by
  cases w with
  | error e =>
      cases h : st.settled with
      | some v => exact ⟨[], by simp [handleWorkerEvent, h], by simp⟩
      | none =>
          refine ⟨[Ev.genReject e], by simp [handleWorkerEvent, h], ?_⟩
          simp [Ev.genStepEv]
  | message sd ad =>
      simp only [handleWorkerEvent]
      split
      · cases hw : wf with
        | some f =>
            refine ⟨[Ev.uncaught f], by simp, ?_⟩
            simp [Ev.genStepEv]
        | none =>
            simp only [resolveOnce]
            split
            · exact ⟨[Ev.setItem KEY_SEARCH (enc sd),
                Ev.setItem KEY_AREA (enc ad), Ev.revokeURL], by simp,
                by simp [Ev.genStepEv]⟩
            · exact ⟨[Ev.setItem KEY_SEARCH (enc sd),
                Ev.setItem KEY_AREA (enc ad), Ev.revokeURL, Ev.genResolve],
                by simp, by simp [Ev.genStepEv]⟩
      · simp only [resolveOnce]
        split
        · exact ⟨[Ev.revokeURL], by simp, by simp [Ev.genStepEv]⟩
        · exact ⟨[Ev.revokeURL, Ev.genResolve], by simp,
            by simp [Ev.genStepEv]⟩

/-- Worker-event handlers never change the multiplicity of any event that
is not a handler-step event. -/
theorem gen_count_eq (d : Bool) (wf : Option String) (enc : Nat → String)
    (e : Ev) (he : e.genStepEv = false) :
    ∀ (evs : List WEvent) (st : GenSt),
      ((evs.foldl (handleWorkerEvent d wf enc) st).trace.count e) =
        st.trace.count e := by
  intro evs
  induction evs with
  | nil => intro st; rfl
  | cons w rest ih =>
      intro st
      rw [List.foldl_cons, ih]
      obtain ⟨δ, hδ, hall⟩ := handleWorkerEvent_trace d wf enc st w
      rw [hδ, List.count_append]
      have : δ.count e = 0 := by
        rw [List.count_eq_zero]
        intro hmem
        rw [hall e hmem] at he
        exact Bool.noConfusion he
      omega

/-- Once the promise of `generate` is settled, later worker events cannot
change the settlement. -/
theorem gen_settled_stable (d : Bool) (wf : Option String)
    (enc : Nat → String) (x : Except String (String × String)) :
    ∀ (evs : List WEvent) (st : GenSt), st.settled = some x →
      (evs.foldl (handleWorkerEvent d wf enc) st).settled = some x := by
  refine foldl_inv _ (fun (st : GenSt) => st.settled = some x) ?_
  intro st w h
  cases w with
  | error e => simp [handleWorkerEvent, h]
  | message sd ad =>
      simp only [handleWorkerEvent]
      split
      · cases wf with
        | some f => simpa using h
        | none => simp [resolveOnce, h]
      · simp [resolveOnce, h]

/-- If the promise of `generate` is rejected with `e`, the worker really
delivered an error event carrying `e`: no other failure (in particular no
cache-write failure) can reject it. -/
theorem gen_settled_error_mem (d : Bool) (wf : Option String)
    (enc : Nat → String) (e : String) :
    ∀ (evs : List WEvent) (st : GenSt),
      (evs.foldl (handleWorkerEvent d wf enc) st).settled =
        some (Except.error e) →
      st.settled = some (Except.error e) ∨ WEvent.error e ∈ evs := by
  intro evs
  induction evs with
  | nil => intro st h; exact Or.inl h
  | cons w rest ih =>
      intro st h
      rw [List.foldl_cons] at h
      rcases ih _ h with hstep | hmem
      · cases w with
        | error e' =>
            cases hs : st.settled with
            | some v =>
                simp [handleWorkerEvent, hs] at hstep
                subst hstep
                exact Or.inl rfl
            | none =>
                simp [handleWorkerEvent, hs] at hstep
                exact Or.inr (by simp [hstep])
        | message sd ad =>
            refine Or.inl ?_
            revert hstep
            simp only [handleWorkerEvent]
            split
            · cases wf with
              | some f => intro hstep; exact hstep
              | none =>
                  simp only [resolveOnce]
                  split
                  · intro hstep; exact hstep
                  · intro hstep; simp at hstep
            · simp only [resolveOnce]
              split
              · intro hstep; exact hstep
              · intro hstep; simp at hstep
      · exact Or.inr (List.mem_cons_of_mem _ hmem)

/-- A worker whose first event is an error event rejects the promise of
`generate` with exactly that error. -/
theorem gen_settled_head_error (d : Bool) (s : Option Store)
    (wf : Option String) (enc : Nat → String) (e : String)
    (rest : List WEvent) :
    (generateRun d s wf enc (WEvent.error e :: rest)).settled =
      some (Except.error e) := by
  unfold generateRun
  rw [List.foldl_cons]
  exact gen_settled_stable d wf enc _ rest _ (by simp [handleWorkerEvent])

theorem handleImageEvent_trace (r : ImgPair) (st : ThenSt) (w : ImgEvent) :
    ∃ δ, (handleImageEvent r st w).trace = st.trace ++ δ ∧
      ∀ x ∈ δ, x.thenStepEv = true := by
  cases w with
  | searchLoad =>
      simp only [handleImageEvent, stepEnd]
      split
      · exact ⟨[Ev.extEnd KEY_SEARCH, Ev.intEnd KEY_SEARCH,
          Ev.onLoadCb r.searchSrc r.areaSrc], by simp,
          by simp [Ev.thenStepEv]⟩
      · exact ⟨[Ev.extEnd KEY_SEARCH, Ev.intEnd KEY_SEARCH], by simp,
          by simp [Ev.thenStepEv]⟩
  | areaLoad =>
      simp only [handleImageEvent, stepEnd]
      split
      · exact ⟨[Ev.extEnd KEY_AREA, Ev.intEnd KEY_AREA,
          Ev.onLoadCb r.searchSrc r.areaSrc], by simp,
          by simp [Ev.thenStepEv]⟩
      · exact ⟨[Ev.extEnd KEY_AREA, Ev.intEnd KEY_AREA], by simp,
          by simp [Ev.thenStepEv]⟩

/-- Image-load listeners never change the multiplicity of any event that
is not a listener-step event. -/
theorem then_count_eq (r : ImgPair) (e : Ev) (he : e.thenStepEv = false) :
    ∀ (evs : List ImgEvent) (st : ThenSt),
      ((evs.foldl (handleImageEvent r) st).trace.count e) =
        st.trace.count e := by
  intro evs
  induction evs with
  | nil => intro st; rfl
  | cons w rest ih =>
      intro st
      rw [List.foldl_cons, ih]
      obtain ⟨δ, hδ, hall⟩ := handleImageEvent_trace r st w
      rw [hδ, List.count_append]
      have : δ.count e = 0 := by
        rw [List.count_eq_zero]
        intro hmem
        rw [hall e hmem] at he
        exact Bool.noConfusion he
      omega

theorem handleImageEvent_loaded (r : ImgPair) (st : ThenSt) (w : ImgEvent) :
    (handleImageEvent r st w).loaded = st.loaded + 1 := by
  cases w <;> (simp only [handleImageEvent, stepEnd]; split <;> rfl)

theorem then_loaded (r : ImgPair) :
    ∀ (evs : List ImgEvent) (st : ThenSt),
      (evs.foldl (handleImageEvent r) st).loaded = st.loaded + evs.length := by
  intro evs
  induction evs with
  | nil => intro st; rfl
  | cons w rest ih =>
      intro st
      rw [List.foldl_cons, ih, handleImageEvent_loaded]
      simp [Nat.add_assoc, Nat.add_comm 1 rest.length]

/-- Once the internal manager's `itemsLoaded` counter has reached 2, the
outer promise can no longer change: the internal `onLoad` only fires at
the moment the counter meets the total. -/
theorem then_promise_stable (r : ImgPair) (p : PromiseState) :
    ∀ (evs : List ImgEvent) (st : ThenSt), st.promise = p → 2 ≤ st.loaded →
      (evs.foldl (handleImageEvent r) st).promise = p := by
  intro evs st hp hl
  have h := foldl_inv (handleImageEvent r)
    (fun (st : ThenSt) => st.promise = p ∧ 2 ≤ st.loaded) ?_ evs st ⟨hp, hl⟩
  · exact h.1
  · intro st' w hw
    obtain ⟨hp', hl'⟩ := hw
    have hne : ¬ (st'.loaded + 1 = 2) := by omega
    cases w <;>
      (simp only [handleImageEvent, stepEnd]
       rw [if_neg hne]
       exact ⟨hp', Nat.le_succ_of_le hl'⟩)

theorem then_count_onLoad_stable (r : ImgPair) (a b : Option String) :
    ∀ (evs : List ImgEvent) (st : ThenSt), 2 ≤ st.loaded →
      ((evs.foldl (handleImageEvent r) st).trace.count (Ev.onLoadCb a b)) =
        st.trace.count (Ev.onLoadCb a b) := by
  intro evs
  induction evs with
  | nil => intro st _; rfl
  | cons w rest ih =>
      intro st hl
      rw [List.foldl_cons, ih _ (by rw [handleImageEvent_loaded]; omega)]
      have hne : ¬ (st.loaded + 1 = 2) := by omega
      cases w <;>
        (simp only [handleImageEvent, stepEnd]
         rw [if_neg hne]
         simp)

/-- The outer promise after the fulfillment continuation: resolved with
the result object exactly when at least two image `load` events fired. -/
theorem thenRun_promise (u1 u2 : String) (evs : List ImgEvent) :
    (thenRun u1 u2 evs).promise =
      if 2 ≤ evs.length then PromiseState.resolved (resultPair u1 u2)
      else PromiseState.pending := by
  match evs with
  | [] => simp [thenRun]
  | [e1] =>
      cases e1 <;> simp [thenRun, handleImageEvent, stepEnd]
  | e1 :: e2 :: rest =>
      have hlen : 2 ≤ (e1 :: e2 :: rest).length := by
        show 2 ≤ rest.length + 1 + 1
        omega
      rw [if_pos hlen]
      unfold thenRun
      rw [List.foldl_cons, List.foldl_cons]
      refine then_promise_stable _ _ rest _ ?_ ?_
      · cases e1 <;> cases e2 <;> simp [handleImageEvent, stepEnd]
      · cases e1 <;> cases e2 <;> simp [handleImageEvent, stepEnd]

/-- The caller's `onLoad` callback is invoked (with the result's two
sources) exactly when at least two image `load` events fired. -/
theorem thenRun_onLoad_count (u1 u2 : String) (evs : List ImgEvent) :
    ((thenRun u1 u2 evs).trace.count (Ev.onLoadCb (some u1) (some u2))) =
      if 2 ≤ evs.length then 1 else 0 := by
  match evs with
  | [] => simp [thenRun]
  | [e1] =>
      cases e1 <;>
        simp +decide [thenRun, handleImageEvent, stepEnd, resultPair,
          List.count_cons, List.count_append]
  | e1 :: e2 :: rest =>
      have hlen : 2 ≤ (e1 :: e2 :: rest).length := by
        show 2 ≤ rest.length + 1 + 1
        omega
      rw [if_pos hlen]
      unfold thenRun
      rw [List.foldl_cons, List.foldl_cons]
      rw [then_count_onLoad_stable _ _ _ rest _ ?hl]
      case hl =>
        cases e1 <;> cases e2 <;> simp [handleImageEvent, stepEnd]
      cases e1 <;> cases e2 <;>
        simp +decide [handleImageEvent, stepEnd, resultPair,
          List.count_cons, List.count_append]

/-- How many `itemEnd` calls each manager receives per key: exactly the
number of `load` events the corresponding image fired. -/
theorem then_counts (r : ImgPair) :
    ∀ (evs : List ImgEvent) (st : ThenSt),
      ((evs.foldl (handleImageEvent r) st).trace.count
          (Ev.extEnd KEY_SEARCH) =
        st.trace.count (Ev.extEnd KEY_SEARCH) +
          evs.count ImgEvent.searchLoad) ∧
      ((evs.foldl (handleImageEvent r) st).trace.count
          (Ev.intEnd KEY_SEARCH) =
        st.trace.count (Ev.intEnd KEY_SEARCH) +
          evs.count ImgEvent.searchLoad) ∧
      ((evs.foldl (handleImageEvent r) st).trace.count
          (Ev.extEnd KEY_AREA) =
        st.trace.count (Ev.extEnd KEY_AREA) +
          evs.count ImgEvent.areaLoad) ∧
      ((evs.foldl (handleImageEvent r) st).trace.count
          (Ev.intEnd KEY_AREA) =
        st.trace.count (Ev.intEnd KEY_AREA) +
          evs.count ImgEvent.areaLoad) := by
  intro evs
  induction evs with
  | nil => intro st; simp
  | cons w rest ih =>
      intro st
      obtain ⟨h1, h2, h3, h4⟩ := ih (handleImageEvent r st w)
      rw [List.foldl_cons]
      rw [h1, h2, h3, h4]
      cases w <;>
        (simp only [handleImageEvent, stepEnd]
         split <;>
           simp +decide [KEY_SEARCH, KEY_AREA, List.count_cons,
             List.count_append] <;> omega)

/-- Every image event is a `load` event of one of the two images. -/
theorem imgEvents_length (evs : List ImgEvent) :
    evs.length = evs.count ImgEvent.searchLoad +
      evs.count ImgEvent.areaLoad := by
  induction evs with
  | nil => rfl
  | cons w rest ih =>
      cases w <;> simp [List.count_cons, ih] <;> omega

theorem Store.getItem_setItem_self (s : Store) (k v : String) :
    (s.setItem k v).getItem k = some v := by
  simp only [Store.setItem, Store.getItem]
  rw [List.find?_cons_of_pos _ (by simp)]
  rfl

theorem Store.getItem_setItem_ne (s : Store) (k k' v : String)
    (h : k' ≠ k) : (s.setItem k v).getItem k' = s.getItem k' := by
  simp only [Store.setItem, Store.getItem]
  rw [List.find?_cons_of_neg _ (by simp [Ne.symm h])]
  congr 1
  induction s with
  | nil => rfl
  | cons p rest ih =>
      rw [List.filter_cons]
      by_cases hp : p.1 = k
      · rw [if_neg (by simp [hp])]
        rw [ih, List.find?_cons_of_neg _ (by simp [hp, Ne.symm h])]
      · rw [if_pos (by simp [hp])]
        by_cases hk' : p.1 = k'
        · rw [List.find?_cons_of_pos _ (by simp [hk']),
            List.find?_cons_of_pos _ (by simp [hk'])]
        · rw [List.find?_cons_of_neg _ (by simp [hk']),
            List.find?_cons_of_neg _ (by simp [hk']), ih]

/-- Multiplicities in the full `generate` trace, for any event the
worker-event handlers cannot append: exactly what the synchronous part of
`generate` (blob URL creation, worker spawn, trigger message) emits. -/
theorem generateRun_count (d : Bool) (s : Option Store)
    (wf : Option String) (enc : Nat → String) (evs : List WEvent) (e : Ev)
    (he : e.genStepEv = false) :
    (generateRun d s wf enc evs).trace.count e =
      List.count e [Ev.createURL, Ev.spawnWorker, Ev.postMsg] :=
  gen_count_eq d wf enc e he evs _

/-- Multiplicities in the fulfillment-continuation trace, for any event
the image-load listeners cannot append: exactly what the two `src`
assignments emit. -/
theorem thenRun_count (u1 u2 : String) (evs : List ImgEvent) (e : Ev)
    (he : e.thenStepEv = false) :
    (thenRun u1 u2 evs).trace.count e =
      List.count e [Ev.srcSearch u1, Ev.srcArea u2] :=
  then_count_eq _ e he evs _

/-- The five possible shapes of a `load()` run: executor throw during the
cache read; cache hit; generation pending; generation resolved;
generation rejected. -/
theorem load_cases (env : Env) :
    (∃ e, cacheRead env = Except.error e ∧
      (load env).trace = startEvents ∧
      (load env).promise = PromiseState.rejected e ∧
      (load env).finalStore = env.store) ∨
    (∃ u1 u2, cacheRead env = Except.ok (some u1, some u2) ∧
      (load env).trace =
        startEvents ++ (thenRun u1 u2 env.imageEvents).trace ∧
      (load env).promise = (thenRun u1 u2 env.imageEvents).promise ∧
      (load env).finalStore = env.store) ∨
    ((genOf env).settled = none ∧
      (load env).trace = startEvents ++ (genOf env).trace ∧
      (load env).promise = PromiseState.pending ∧
      (load env).finalStore = (genOf env).store) ∨
    (∃ u1 u2, (genOf env).settled = some (Except.ok (u1, u2)) ∧
      (load env).trace = startEvents ++ (genOf env).trace ++
        (thenRun u1 u2 env.imageEvents).trace ∧
      (load env).promise = (thenRun u1 u2 env.imageEvents).promise ∧
      (load env).finalStore = (genOf env).store) ∨
    (∃ e, (genOf env).settled = some (Except.error e) ∧
      (load env).trace = startEvents ++ (genOf env).trace ++
        [Ev.extError KEY_SEARCH, Ev.extError KEY_AREA, Ev.onErrorCb e] ∧
      (load env).promise = PromiseState.rejected e ∧
      (load env).finalStore = (genOf env).store) := by
  have hmiss : load env = missRun env →
      ((genOf env).settled = none ∧
        (load env).trace = startEvents ++ (genOf env).trace ∧
        (load env).promise = PromiseState.pending ∧
        (load env).finalStore = (genOf env).store) ∨
      (∃ u1 u2, (genOf env).settled = some (Except.ok (u1, u2)) ∧
        (load env).trace = startEvents ++ (genOf env).trace ++
          (thenRun u1 u2 env.imageEvents).trace ∧
        (load env).promise = (thenRun u1 u2 env.imageEvents).promise ∧
        (load env).finalStore = (genOf env).store) ∨
      (∃ e, (genOf env).settled = some (Except.error e) ∧
        (load env).trace = startEvents ++ (genOf env).trace ++
          [Ev.extError KEY_SEARCH, Ev.extError KEY_AREA,
            Ev.onErrorCb e] ∧
        (load env).promise = PromiseState.rejected e ∧
        (load env).finalStore = (genOf env).store) := by
    intro hm
    rcases hset : (genOf env).settled with _ | x
    · refine Or.inl ⟨rfl, ?_⟩
      rw [hm]; simp [missRun, hset]
    · rcases x with e | ⟨u1, u2⟩
      · refine Or.inr (Or.inr ⟨e, rfl, ?_⟩)
        rw [hm]; simp [missRun, hset]
      · refine Or.inr (Or.inl ⟨u1, u2, rfl, ?_⟩)
        rw [hm]; simp [missRun, hset]
  rcases hcr : cacheRead env with e | ⟨c1, c2⟩
  · refine Or.inl ⟨e, rfl, ?_⟩
    simp [load, hcr]
  · rcases c1 with _ | u1
    · rcases hmiss (by simp [load, hcr]) with h | h | h
      · exact Or.inr (Or.inr (Or.inl h))
      · exact Or.inr (Or.inr (Or.inr (Or.inl h)))
      · exact Or.inr (Or.inr (Or.inr (Or.inr h)))
    · rcases c2 with _ | u2
      · rcases hmiss (by simp [load, hcr]) with h | h | h
        · exact Or.inr (Or.inr (Or.inl h))
        · exact Or.inr (Or.inr (Or.inr (Or.inl h)))
        · exact Or.inr (Or.inr (Or.inr (Or.inr h)))
      · refine Or.inr (Or.inl ⟨u1, u2, rfl, ?_⟩)
        simp [load, hcr]

theorem count_eq_zero_of_all {l : List Ev} {e : Ev}
    (h : ∀ x ∈ l, x ≠ e) : l.count e = 0 :=
  List.count_eq_zero.mpr (fun hm => (h e hm) rfl)

/-- Every `load()` trace is the four start calls followed by a tail that
contains no further start call. -/
theorem load_trace_decomp (env : Env) :
    ∃ rest, (load env).trace = startEvents ++ rest ∧
      ∀ k, rest.count (Ev.extStart k) = 0 ∧
        rest.count (Ev.intStart k) = 0 := by
  have hthen : ∀ (u1 u2 : String) (k : String),
      (thenRun u1 u2 env.imageEvents).trace.count (Ev.extStart k) = 0 ∧
      (thenRun u1 u2 env.imageEvents).trace.count (Ev.intStart k) = 0 := by
    intro u1 u2 k
    refine ⟨?_, ?_⟩
    · rw [thenRun_count u1 u2 env.imageEvents (Ev.extStart k) rfl]
      exact count_eq_zero_of_all (by intro x hx; fin_cases hx <;> simp)
    · rw [thenRun_count u1 u2 env.imageEvents (Ev.intStart k) rfl]
      exact count_eq_zero_of_all (by intro x hx; fin_cases hx <;> simp)
  have hgen : ∀ k : String,
      (genOf env).trace.count (Ev.extStart k) = 0 ∧
      (genOf env).trace.count (Ev.intStart k) = 0 := by
    intro k
    refine ⟨?_, ?_⟩
    · rw [genOf, generateRun_count _ _ _ _ _ (Ev.extStart k) rfl]
      exact count_eq_zero_of_all (by intro x hx; fin_cases hx <;> simp)
    · rw [genOf, generateRun_count _ _ _ _ _ (Ev.intStart k) rfl]
      exact count_eq_zero_of_all (by intro x hx; fin_cases hx <;> simp)
  rcases load_cases env with ⟨e, _, ht, _, _⟩ | ⟨u1, u2, _, ht, _, _⟩ |
    ⟨_, ht, _, _⟩ | ⟨u1, u2, _, ht, _, _⟩ | ⟨e, _, ht, _, _⟩
  · exact ⟨[], by simp [ht], by simp⟩
  · exact ⟨(thenRun u1 u2 env.imageEvents).trace, ht, hthen u1 u2⟩
  · exact ⟨(genOf env).trace, ht, hgen⟩
  · refine ⟨(genOf env).trace ++ (thenRun u1 u2 env.imageEvents).trace,
      by rw [ht, List.append_assoc], ?_⟩
    intro k
    have h1 := (hgen k).1
    have h2 := (hgen k).2
    have h3 := (hthen u1 u2 k).1
    have h4 := (hthen u1 u2 k).2
    constructor <;> (simp only [List.count_append]; omega)
  · refine ⟨(genOf env).trace ++
      [Ev.extError KEY_SEARCH, Ev.extError KEY_AREA, Ev.onErrorCb e],
      by rw [ht, List.append_assoc], ?_⟩
    intro k
    have h1 := (hgen k).1
    have h2 := (hgen k).2
    have h3 : List.count (Ev.extStart k)
        [Ev.extError KEY_SEARCH, Ev.extError KEY_AREA,
          Ev.onErrorCb e] = 0 :=
      count_eq_zero_of_all (by intro x hx; fin_cases hx <;> simp)
    have h4 : List.count (Ev.intStart k)
        [Ev.extError KEY_SEARCH, Ev.extError KEY_AREA,
          Ev.onErrorCb e] = 0 :=
      count_eq_zero_of_all (by intro x hx; fin_cases hx <;> simp)
    constructor <;> (simp only [List.count_append]; omega)

/-- C9: every invocation of `load()` issues exactly four start calls at
its beginning, in the fixed order external-search, external-area,
internal-search, internal-area; no further start call ever follows, so
the external starts always precede the internal starts. -/
theorem c9_start_calls (env : Env) :
    (load env).trace.take 4 =
      [Ev.extStart KEY_SEARCH, Ev.extStart KEY_AREA,
       Ev.intStart KEY_SEARCH, Ev.intStart KEY_AREA] ∧
    (load env).trace.count (Ev.extStart KEY_SEARCH) = 1 ∧
    (load env).trace.count (Ev.extStart KEY_AREA) = 1 ∧
    (load env).trace.count (Ev.intStart KEY_SEARCH) = 1 ∧
    (load env).trace.count (Ev.intStart KEY_AREA) = 1 := by
  obtain ⟨rest, hrest, hz⟩ := load_trace_decomp env
  rw [hrest]
  have hzs1 := (hz KEY_SEARCH).1
  have hzs2 := (hz KEY_SEARCH).2
  have hza1 := (hz KEY_AREA).1
  have hza2 := (hz KEY_AREA).2
  refine ⟨by simp [startEvents], ?_, ?_, ?_, ?_⟩ <;>
    (simp +decide [List.count_append, List.count_cons, List.count_nil,
       startEvents]
     omega)

theorem thenRun_count_zero (u1 u2 : String) (evs : List ImgEvent)
    (e : Ev) (hth : e.thenStepEv = false)
    (h1 : e ≠ Ev.srcSearch u1) (h2 : e ≠ Ev.srcArea u2) :
    (thenRun u1 u2 evs).trace.count e = 0 := by
  rw [thenRun_count u1 u2 evs e hth]
  refine count_eq_zero_of_all ?_
  intro x hx
  fin_cases hx
  exacts [Ne.symm h1, Ne.symm h2]

theorem genOf_count (env : Env) (e : Ev) (hg : e.genStepEv = false) :
    (genOf env).trace.count e =
      List.count e [Ev.createURL, Ev.spawnWorker, Ev.postMsg] := by
  rw [genOf, generateRun_count _ _ _ _ _ e hg]

/-- C3: with caching enabled, the store present and both keys cached,
`load()` spawns no worker (the compute unit is not invoked) and any
resolution of the returned promise carries exactly the two cached strings
as the image sources. -/
theorem c3_cache_hit (env : Env) (s : Store) (u1 u2 : String)
    (h1 : env.disableCache = false) (h2 : env.store = some s)
    (h3 : env.readFault = none)
    (h4 : s.getItem KEY_SEARCH = some u1)
    (h5 : s.getItem KEY_AREA = some u2) :
    (load env).trace.count Ev.spawnWorker = 0 ∧
    (load env).trace.count Ev.createURL = 0 ∧
    (load env).trace.count Ev.postMsg = 0 ∧
    (∀ r, (load env).promise = PromiseState.resolved r →
      r.searchSrc = some u1 ∧ r.areaSrc = some u2) := by
  have hcr : cacheRead env = Except.ok (some u1, some u2) := by
    simp [cacheRead, h1, h2, h3, h4, h5]
  have ht : (load env).trace =
      startEvents ++ (thenRun u1 u2 env.imageEvents).trace := by
    simp [load, hcr]
  have hp : (load env).promise =
      (thenRun u1 u2 env.imageEvents).promise := by
    simp [load, hcr]
  refine ⟨?_, ?_, ?_, ?_⟩
  · rw [ht, List.count_append, thenRun_count_zero u1 u2
      env.imageEvents Ev.spawnWorker rfl (by simp) (by simp)]
    simp +decide [startEvents]
  · rw [ht, List.count_append, thenRun_count_zero u1 u2
      env.imageEvents Ev.createURL rfl (by simp) (by simp)]
    simp +decide [startEvents]
  · rw [ht, List.count_append, thenRun_count_zero u1 u2
      env.imageEvents Ev.postMsg rfl (by simp) (by simp)]
    simp +decide [startEvents]
  · intro r hr
    rw [hp, thenRun_promise] at hr
    by_cases hlen : 2 ≤ env.imageEvents.length
    · rw [if_pos hlen] at hr
      have : resultPair u1 u2 = r := by
        injection hr
      subst this
      simp [resultPair]
    · rw [if_neg hlen] at hr
      exact PromiseState.noConfusion hr

/-- Witness for C3 at a concrete environment: a populated cache, both
image load events fire, the worker is never spawned and the resolved
sources are the cached strings. -/
theorem c3_cache_hit_witness :
    (envC3.disableCache = false ∧
      envC3.store = some [(KEY_SEARCH, "S"), (KEY_AREA, "A")] ∧
      envC3.readFault = none ∧
      Store.getItem [(KEY_SEARCH, "S"), (KEY_AREA, "A")] KEY_SEARCH =
        some "S" ∧
      Store.getItem [(KEY_SEARCH, "S"), (KEY_AREA, "A")] KEY_AREA =
        some "A") ∧
    ((load envC3).trace.count Ev.spawnWorker = 0 ∧
      (load envC3).trace.count Ev.createURL = 0 ∧
      (load envC3).trace.count Ev.postMsg = 0 ∧
      (∀ r, (load envC3).promise = PromiseState.resolved r →
        r.searchSrc = some "S" ∧ r.areaSrc = some "A")) :=
  ⟨⟨rfl, rfl, rfl, by decide, by decide⟩,
    c3_cache_hit envC3 [(KEY_SEARCH, "S"), (KEY_AREA, "A")] "S" "A"
      rfl rfl rfl (by decide) (by decide)⟩

/-- C4: when caching is disabled, or the store is absent, or either key
is missing, `load()` invokes the compute unit exactly once — one blob
URL, one worker, one trigger message — and the cache read never throws
in any of these cases. -/
theorem c4_cache_miss (env : Env)
    (h : env.disableCache = true ∨ env.store = none ∨
      (env.readFault = none ∧ ∃ s, env.store = some s ∧
        (s.getItem KEY_SEARCH = none ∨ s.getItem KEY_AREA = none))) :
    (load env).trace.count Ev.spawnWorker = 1 ∧
    (load env).trace.count Ev.createURL = 1 ∧
    (load env).trace.count Ev.postMsg = 1 ∧
    (∀ e, cacheRead env ≠ Except.error e) := by
  have hcr : ∃ c1 c2, cacheRead env = Except.ok (c1, c2) ∧
      (c1 = none ∨ c2 = none) := by
    rcases h with h | h | ⟨h3, s, h2, hk⟩
    · exact ⟨none, none, by simp [cacheRead, h], Or.inl rfl⟩
    · refine ⟨none, none, ?_, Or.inl rfl⟩
      unfold cacheRead
      rw [h]
      cases env.disableCache <;> simp
    · by_cases hd : env.disableCache = true
      · exact ⟨none, none, by simp [cacheRead, hd], Or.inl rfl⟩
      · rw [Bool.not_eq_true] at hd
        refine ⟨s.getItem KEY_SEARCH, s.getItem KEY_AREA, ?_, hk⟩
        simp [cacheRead, hd, h2, h3]
  obtain ⟨c1, c2, hc, hnone⟩ := hcr
  have hcount : ∀ e : Ev, e.genStepEv = false → e.thenStepEv = false →
      (∀ u, e ≠ Ev.srcSearch u) → (∀ u, e ≠ Ev.srcArea u) →
      (∀ k, e ≠ Ev.extError k) → (∀ x, e ≠ Ev.onErrorCb x) →
      (load env).trace.count e =
        List.count e startEvents +
        List.count e [Ev.createURL, Ev.spawnWorker, Ev.postMsg] := by
    intro e hg hth hs1 hs2 he1 he2
    rcases load_cases env with ⟨x, hce, _⟩ | ⟨u1, u2, hce, _⟩ |
      ⟨_, ht, _, _⟩ | ⟨u1, u2, _, ht, _, _⟩ | ⟨x, _, ht, _, _⟩
    · rw [hce] at hc; exact Except.noConfusion hc
    · rw [hce] at hc
      have h1 : some u1 = c1 ∧ some u2 = c2 := by
        have := hc
        injection this with hp
        injection hp with hp1 hp2
        exact ⟨hp1, hp2⟩
      rcases hnone with hn | hn
      · rw [← h1.1] at hn; exact Option.noConfusion hn
      · rw [← h1.2] at hn; exact Option.noConfusion hn
    · rw [ht, List.count_append, genOf_count env e hg]
    · rw [ht, List.count_append, List.count_append,
        genOf_count env e hg,
        thenRun_count_zero u1 u2 _ e hth (hs1 u1) (hs2 u2)]
      omega
    · rw [ht, List.count_append, List.count_append,
        genOf_count env e hg]
      have hz : List.count e [Ev.extError KEY_SEARCH,
          Ev.extError KEY_AREA, Ev.onErrorCb x] = 0 := by
        refine count_eq_zero_of_all ?_
        intro y hy
        fin_cases hy
        exacts [Ne.symm (he1 KEY_SEARCH), Ne.symm (he1 KEY_AREA),
          Ne.symm (he2 x)]
      rw [hz]
      omega
  refine ⟨?_, ?_, ?_, ?_⟩
  · rw [hcount Ev.spawnWorker rfl rfl (by simp) (by simp) (by simp)
      (by simp)]
    simp +decide [startEvents]
  · rw [hcount Ev.createURL rfl rfl (by simp) (by simp) (by simp)
      (by simp)]
    simp +decide [startEvents]
  · rw [hcount Ev.postMsg rfl rfl (by simp) (by simp) (by simp)
      (by simp)]
    simp +decide [startEvents]
  · intro e he
    rw [he] at hc
    exact Except.noConfusion hc

/-- Witness for C4 at a concrete environment: no store at all, the
worker answers, the compute unit is spawned exactly once. -/
theorem c4_cache_miss_witness :
    (envC4.disableCache = true ∨ envC4.store = none ∨
      (envC4.readFault = none ∧ ∃ s, envC4.store = some s ∧
        (s.getItem KEY_SEARCH = none ∨ s.getItem KEY_AREA = none))) ∧
    ((load envC4).trace.count Ev.spawnWorker = 1 ∧
      (load envC4).trace.count Ev.createURL = 1 ∧
      (load envC4).trace.count Ev.postMsg = 1 ∧
      (∀ e, cacheRead envC4 ≠ Except.error e)) :=
  ⟨Or.inr (Or.inl rfl),
    c4_cache_miss envC4 (Or.inr (Or.inl rfl))⟩

/-- Any event that no part of `load()` after the four start calls can
emit occurs in the full trace exactly as often as in the start calls. -/
theorem load_count_eq_start (env : Env) (e : Ev)
    (hg : e.genStepEv = false) (hth : e.thenStepEv = false)
    (hgen3 : List.count e [Ev.createURL, Ev.spawnWorker, Ev.postMsg] = 0)
    (hs1 : ∀ u, e ≠ Ev.srcSearch u) (hs2 : ∀ u, e ≠ Ev.srcArea u)
    (he1 : ∀ k, e ≠ Ev.extError k) (he2 : ∀ x, e ≠ Ev.onErrorCb x) :
    (load env).trace.count e = List.count e startEvents := by
  rcases load_cases env with ⟨x, _, ht, _, _⟩ | ⟨u1, u2, _, ht, _, _⟩ |
    ⟨_, ht, _, _⟩ | ⟨u1, u2, _, ht, _, _⟩ | ⟨x, _, ht, _, _⟩
  · rw [ht]
  · rw [ht, List.count_append,
      thenRun_count_zero u1 u2 _ e hth (hs1 u1) (hs2 u2)]
    omega
  · rw [ht, List.count_append, genOf_count env e hg, hgen3]
    omega
  · rw [ht, List.count_append, List.count_append,
      genOf_count env e hg, hgen3,
      thenRun_count_zero u1 u2 _ e hth (hs1 u1) (hs2 u2)]
    omega
  · rw [ht, List.count_append, List.count_append,
      genOf_count env e hg, hgen3]
    have hz : List.count e [Ev.extError KEY_SEARCH,
        Ev.extError KEY_AREA, Ev.onErrorCb x] = 0 := by
      refine count_eq_zero_of_all ?_
      intro y hy
      fin_cases hy
      exacts [Ne.symm (he1 KEY_SEARCH), Ne.symm (he1 KEY_AREA),
        Ne.symm (he2 x)]
    rw [hz]
    omega

/-- C2 (resource release): the source never releases the worker's
execution context — no run of `load()` ever terminates the worker — and
on the error path it does not revoke the blob URL either: with a worker
that reports an error, the run spawns the worker and blob URL but emits
no `revokeObjectURL` and no terminate, while the promise rejects.  This
contradicts the claim that both resources are released exactly once on
both paths. -/
theorem c2_resource_release :
    (∀ env : Env, (load env).trace.count Ev.terminateWorker = 0) ∧
    (load envC2).trace.count Ev.spawnWorker = 1 ∧
    (load envC2).trace.count Ev.createURL = 1 ∧
    (load envC2).trace.count Ev.revokeURL = 0 ∧
    (load envC2).trace.count Ev.terminateWorker = 0 ∧
    (load envC2).promise = PromiseState.rejected "E" := by
  refine ⟨?_, by decide, by decide, by decide, by decide, by decide⟩
  intro env
  rw [load_count_eq_start env Ev.terminateWorker rfl rfl (by decide)
    (by simp) (by simp) (by simp) (by simp)]
  decide

/-- C6 (error path): whenever `load()` takes the cache-miss path and the
generation promise rejects with `e`, the run rejects the returned promise
with `e`, the external manager receives exactly one `itemError` per key,
`onError` is invoked exactly once with `e`, the internal manager receives
no terminal call at all (no `itemEnd`, no `itemError`) while its two
start calls stay in place, and the two external error calls followed by
the `onError` invocation are the last events of the trace. -/
theorem c6_error_path (env : Env) (c1 c2 : Option String) (e : String)
    (hmiss : cacheRead env = Except.ok (c1, c2))
    (hnone : c1 = none ∨ c2 = none)
    (hset : (genOf env).settled = some (Except.error e)) :
    (load env).promise = PromiseState.rejected e ∧
    (load env).trace.count (Ev.extError KEY_SEARCH) = 1 ∧
    (load env).trace.count (Ev.extError KEY_AREA) = 1 ∧
    (load env).trace.count (Ev.onErrorCb e) = 1 ∧
    (load env).trace.count (Ev.intEnd KEY_SEARCH) = 0 ∧
    (load env).trace.count (Ev.intEnd KEY_AREA) = 0 ∧
    (load env).trace.count (Ev.intError KEY_SEARCH) = 0 ∧
    (load env).trace.count (Ev.intError KEY_AREA) = 0 ∧
    (load env).trace.count (Ev.intStart KEY_SEARCH) = 1 ∧
    (load env).trace.count (Ev.intStart KEY_AREA) = 1 ∧
    ∃ pre, (load env).trace = pre ++
      [Ev.extError KEY_SEARCH, Ev.extError KEY_AREA, Ev.onErrorCb e] := by
  rcases load_cases env with ⟨x, hce, _⟩ | ⟨u1, u2, hce, _⟩ |
    ⟨hs, _, _, _⟩ | ⟨u1, u2, hs, _, _, _⟩ | ⟨x, hs, ht, hp, _⟩
  · rw [hce] at hmiss; exact Except.noConfusion hmiss
  · rw [hce] at hmiss
    have h1 : some u1 = c1 ∧ some u2 = c2 := by
      injection hmiss with hp
      injection hp with hp1 hp2
      exact ⟨hp1, hp2⟩
    rcases hnone with hn | hn
    · rw [← h1.1] at hn; exact Option.noConfusion hn
    · rw [← h1.2] at hn; exact Option.noConfusion hn
  · rw [hset] at hs; exact Option.noConfusion hs
  · rw [hset] at hs
    injection hs with hs
    exact Except.noConfusion hs
  · have hex : x = e := by
      rw [hset] at hs
      injection hs with hs
      injection hs with hs
      exact hs.symm
    subst hex
    have hzgen : ∀ y : Ev, y.genStepEv = false →
        (genOf env).trace.count y =
          List.count y [Ev.createURL, Ev.spawnWorker, Ev.postMsg] :=
      fun y hy => genOf_count env y hy
    refine ⟨hp, ?_, ?_, ?_, ?_, ?_, ?_, ?_, ?_, ?_, ?_⟩
    · rw [ht, List.count_append, List.count_append,
        hzgen (Ev.extError KEY_SEARCH) rfl]
      simp +decide [startEvents]
    · rw [ht, List.count_append, List.count_append,
        hzgen (Ev.extError KEY_AREA) rfl]
      simp +decide [startEvents]
    · rw [ht, List.count_append, List.count_append,
        hzgen (Ev.onErrorCb x) rfl]
      simp +decide [startEvents, List.count_cons]
    · rw [ht, List.count_append, List.count_append,
        hzgen (Ev.intEnd KEY_SEARCH) rfl]
      simp +decide [startEvents, List.count_cons]
    · rw [ht, List.count_append, List.count_append,
        hzgen (Ev.intEnd KEY_AREA) rfl]
      simp +decide [startEvents, List.count_cons]
    · rw [ht, List.count_append, List.count_append,
        hzgen (Ev.intError KEY_SEARCH) rfl]
      simp +decide [startEvents, List.count_cons]
    · rw [ht, List.count_append, List.count_append,
        hzgen (Ev.intError KEY_AREA) rfl]
      simp +decide [startEvents, List.count_cons]
    · rw [ht, List.count_append, List.count_append,
        hzgen (Ev.intStart KEY_SEARCH) rfl]
      simp +decide [startEvents, List.count_cons]
    · rw [ht, List.count_append, List.count_append,
        hzgen (Ev.intStart KEY_AREA) rfl]
      simp +decide [startEvents, List.count_cons]
    · exact ⟨startEvents ++ (genOf env).trace, ht⟩

/-- Witness for C6 at a concrete environment: empty store (miss), worker
reports error "E". -/
theorem c6_error_path_witness :
    (cacheRead envC6 = Except.ok (none, none) ∧
      (genOf envC6).settled = some (Except.error "E")) ∧
    ((load envC6).promise = PromiseState.rejected "E" ∧
      (load envC6).trace.count (Ev.extError KEY_SEARCH) = 1 ∧
      (load envC6).trace.count (Ev.extError KEY_AREA) = 1 ∧
      (load envC6).trace.count (Ev.onErrorCb "E") = 1 ∧
      (load envC6).trace.count (Ev.intEnd KEY_SEARCH) = 0 ∧
      (load envC6).trace.count (Ev.intEnd KEY_AREA) = 0 ∧
      (load envC6).trace.count (Ev.intError KEY_SEARCH) = 0 ∧
      (load envC6).trace.count (Ev.intError KEY_AREA) = 0 ∧
      (load envC6).trace.count (Ev.intStart KEY_SEARCH) = 1 ∧
      (load envC6).trace.count (Ev.intStart KEY_AREA) = 1 ∧
      ∃ pre, (load envC6).trace = pre ++
        [Ev.extError KEY_SEARCH, Ev.extError KEY_AREA,
         Ev.onErrorCb "E"]) :=
  ⟨⟨rfl, rfl⟩,
    c6_error_path envC6 none none "E" rfl (Or.inl rfl) rfl⟩

/-- C8 counterexample: with a throwing `getItem`, `load()` rejects the
returned promise with that error, but — contrary to the claim — the
external tracker receives no `itemError` call and `onError` is never
invoked: the throw happens inside the promise executor before the
`.then`/`.catch` chain is attached. -/
theorem c8_counterexample :
    (load envC8).promise = PromiseState.rejected "boom" ∧
    (load envC8).trace.count (Ev.extError KEY_SEARCH) = 0 ∧
    (load envC8).trace.count (Ev.extError KEY_AREA) = 0 ∧
    (load envC8).trace.count (Ev.onErrorCb "boom") = 0 := by
  decide

/-- C8 as amended: a synchronous exception thrown while reading the
persistent store is converted into a rejection of the returned promise
(it is not thrown to the caller), but it bypasses the error-call path:
the trace stops after the four start calls, so the external tracker
receives no `itemError` calls and `onError` is not invoked. -/
theorem c8_amended (env : Env) (s : Store) (e : String)
    (h1 : env.disableCache = false) (h2 : env.store = some s)
    (h3 : env.readFault = some e) :
    (load env).promise = PromiseState.rejected e ∧
    (load env).trace = startEvents := by
  have hcr : cacheRead env = Except.error e := by
    simp [cacheRead, h1, h2, h3]
  constructor <;> simp [load, hcr]

/-- Witness for the amended C8 at a concrete environment. -/
theorem c8_amended_witness :
    (envC8.disableCache = false ∧
      envC8.store = some [(KEY_SEARCH, "x")] ∧
      envC8.readFault = some "boom") ∧
    ((load envC8).promise = PromiseState.rejected "boom" ∧
      (load envC8).trace = startEvents) :=
  ⟨⟨rfl, rfl, rfl⟩,
    c8_amended envC8 [(KEY_SEARCH, "x")] "boom" rfl rfl rfl⟩

/-- Full evaluation of `generate` on a single worker result message with
caching enabled and the store present: both keys written (search first),
blob URL revoked, promise resolved with the two data URLs. -/
theorem generateRun_single_message (s0 : Store) (enc : Nat → String)
    (a b : Nat) :
    generateRun false (some s0) none enc [WEvent.message a b] =
      { store :=
          some ((s0.setItem KEY_SEARCH (enc a)).setItem KEY_AREA (enc b)),
        settled := some (Except.ok (enc a, enc b)),
        trace := [Ev.createURL, Ev.spawnWorker, Ev.postMsg,
          Ev.setItem KEY_SEARCH (enc a), Ev.setItem KEY_AREA (enc b),
          Ev.revokeURL, Ev.genResolve] } := by
  simp [generateRun, handleWorkerEvent, resolveOnce]

/-- C7 (atomic persistence): after a cache-miss `load()` in which the
worker answers with one result message, caching enabled and the store
present, the final store holds both keys with exactly the two encoded
data URLs; the two writes happen back to back, immediately before the
blob-URL revocation and the resolution of the `generate` promise; and the
`generate` promise can only ever reject with an error carried by a worker
error event — a persistence failure never escapes `generate` as an
exception or rejection. -/
theorem c7_persistence (env : Env) (s : Store) (a b : Nat)
    (h1 : env.disableCache = false) (h2 : env.store = some s)
    (h3 : env.readFault = none) (h4 : env.writeFault = none)
    (hk : s.getItem KEY_SEARCH = none ∨ s.getItem KEY_AREA = none)
    (hw : env.workerEvents = [WEvent.message a b]) :
    (∃ s', (load env).finalStore = some s' ∧
      s'.getItem KEY_SEARCH = some (env.encode a) ∧
      s'.getItem KEY_AREA = some (env.encode b)) ∧
    (∃ pre post, (load env).trace = pre ++
      [Ev.setItem KEY_SEARCH (env.encode a),
       Ev.setItem KEY_AREA (env.encode b), Ev.revokeURL,
       Ev.genResolve] ++ post) ∧
    (∀ (d : Bool) (st : Option Store) (w : Option String)
        (enc : Nat → String) (evs : List WEvent) (x : String),
      (generateRun d st w enc evs).settled = some (Except.error x) →
      WEvent.error x ∈ evs) := by
  have hcr : cacheRead env =
      Except.ok (s.getItem KEY_SEARCH, s.getItem KEY_AREA) := by
    simp [cacheRead, h1, h2, h3]
  have hload : load env = missRun env := by
    rcases hc1 : s.getItem KEY_SEARCH with _ | u1
    · rw [hc1] at hcr
      simp [load, hcr]
    · have hk2 : s.getItem KEY_AREA = none := by
        rcases hk with hk | hk
        · rw [hc1] at hk; exact Option.noConfusion hk
        · exact hk
      rw [hc1, hk2] at hcr
      simp [load, hcr]
  have hgen : genOf env =
      generateRun false (some s) none env.encode
        [WEvent.message a b] := by
    rw [genOf, h1, h2, h4, hw]
  rw [generateRun_single_message] at hgen
  have hset : (genOf env).settled =
      some (Except.ok (env.encode a, env.encode b)) := by
    rw [hgen]
  have htr : (missRun env).trace = startEvents ++ (genOf env).trace ++
      (thenRun (env.encode a) (env.encode b) env.imageEvents).trace := by
    simp [missRun, hset]
  have hst : (missRun env).finalStore = (genOf env).store := by
    simp [missRun, hset]
  refine ⟨?_, ?_, ?_⟩
  · refine ⟨(s.setItem KEY_SEARCH (env.encode a)).setItem KEY_AREA
      (env.encode b), ?_, ?_, ?_⟩
    · rw [hload, hst, hgen]
    · rw [Store.getItem_setItem_ne _ _ _ _ (by decide),
        Store.getItem_setItem_self]
    · rw [Store.getItem_setItem_self]
  · refine ⟨startEvents ++ [Ev.createURL, Ev.spawnWorker, Ev.postMsg],
      (thenRun (env.encode a) (env.encode b) env.imageEvents).trace, ?_⟩
    rw [hload, htr, hgen]
    simp
  · intro d st w enc evs x hx
    rcases gen_settled_error_mem d w enc x evs _ hx with h | h
    · exact Option.noConfusion h
    · exact h

/-- Witness for C7 at a concrete environment: empty store, one worker
result message. -/
theorem c7_persistence_witness :
    (envC7.disableCache = false ∧ envC7.store = some [] ∧
      envC7.readFault = none ∧ envC7.writeFault = none ∧
      Store.getItem [] KEY_SEARCH = none ∧
      envC7.workerEvents = [WEvent.message 1 2]) ∧
    ((∃ s', (load envC7).finalStore = some s' ∧
        s'.getItem KEY_SEARCH = some (envC7.encode 1) ∧
        s'.getItem KEY_AREA = some (envC7.encode 2)) ∧
      (∃ pre post, (load envC7).trace = pre ++
        [Ev.setItem KEY_SEARCH (envC7.encode 1),
         Ev.setItem KEY_AREA (envC7.encode 2), Ev.revokeURL,
         Ev.genResolve] ++ post) ∧
      (∀ (d : Bool) (st : Option Store) (w : Option String)
          (enc : Nat → String) (evs : List WEvent) (x : String),
        (generateRun d st w enc evs).settled = some (Except.error x) →
        WEvent.error x ∈ evs)) :=
  ⟨⟨rfl, rfl, rfl, rfl, rfl, rfl⟩,
    c7_persistence envC7 [] 1 2 rfl rfl rfl rfl (Or.inl rfl) rfl⟩

/-- C10 (no single-fire guard): when the worker delivers a second result
message, the message handler runs again in full — with caching enabled
and a store present, both keys are overwritten with the data URLs of the
second message and the blob URL is revoked a second time — while the
promise keeps the first message's URLs (the second `resolve` is a no-op). -/
theorem c10_second_message (s0 : Store) (enc : Nat → String)
    (a b c d : Nat) :
    (generateRun false (some s0) none enc
        [WEvent.message a b, WEvent.message c d]).settled =
      some (Except.ok (enc a, enc b)) ∧
    (∃ s', (generateRun false (some s0) none enc
        [WEvent.message a b, WEvent.message c d]).store = some s' ∧
      s'.getItem KEY_SEARCH = some (enc c) ∧
      s'.getItem KEY_AREA = some (enc d)) ∧
    (generateRun false (some s0) none enc
        [WEvent.message a b, WEvent.message c d]).trace =
      [Ev.createURL, Ev.spawnWorker, Ev.postMsg,
       Ev.setItem KEY_SEARCH (enc a), Ev.setItem KEY_AREA (enc b),
       Ev.revokeURL, Ev.genResolve,
       Ev.setItem KEY_SEARCH (enc c), Ev.setItem KEY_AREA (enc d),
       Ev.revokeURL] ∧
    (generateRun false (some s0) none enc
        [WEvent.message a b, WEvent.message c d]).trace.count
      Ev.revokeURL = 2 ∧
    (generateRun false (some s0) none enc
        [WEvent.message a b, WEvent.message c d]).trace.count
      Ev.genResolve = 1 := by
  have hg : generateRun false (some s0) none enc
      [WEvent.message a b, WEvent.message c d] =
      { store := some ((((s0.setItem KEY_SEARCH (enc a)).setItem
            KEY_AREA (enc b)).setItem KEY_SEARCH (enc c)).setItem
            KEY_AREA (enc d)),
        settled := some (Except.ok (enc a, enc b)),
        trace := [Ev.createURL, Ev.spawnWorker, Ev.postMsg,
          Ev.setItem KEY_SEARCH (enc a), Ev.setItem KEY_AREA (enc b),
          Ev.revokeURL, Ev.genResolve,
          Ev.setItem KEY_SEARCH (enc c), Ev.setItem KEY_AREA (enc d),
          Ev.revokeURL] } := by
    simp [generateRun, handleWorkerEvent, resolveOnce]
  rw [hg]
  refine ⟨rfl, ⟨_, rfl, ?_, ?_⟩, rfl, ?_, ?_⟩
  · rw [Store.getItem_setItem_ne _ _ _ _ (by decide),
      Store.getItem_setItem_self]
  · rw [Store.getItem_setItem_self]
  · simp [List.count_cons]
  · simp [List.count_cons]

/-- The `itemEnd` multiplicities of the fulfillment continuation: one
per manager per image `load` event of the corresponding image. -/
theorem thenRun_end_counts (u1 u2 : String) (evs : List ImgEvent) :
    (thenRun u1 u2 evs).trace.count (Ev.extEnd KEY_SEARCH) =
      evs.count ImgEvent.searchLoad ∧
    (thenRun u1 u2 evs).trace.count (Ev.intEnd KEY_SEARCH) =
      evs.count ImgEvent.searchLoad ∧
    (thenRun u1 u2 evs).trace.count (Ev.extEnd KEY_AREA) =
      evs.count ImgEvent.areaLoad ∧
    (thenRun u1 u2 evs).trace.count (Ev.intEnd KEY_AREA) =
      evs.count ImgEvent.areaLoad := by
  obtain ⟨h1, h2, h3, h4⟩ := then_counts (resultPair u1 u2) evs
    { loaded := 0, promise := PromiseState.pending,
      trace := [Ev.srcSearch u1, Ev.srcArea u2] }
  refine ⟨?_, ?_, ?_, ?_⟩
  · rw [thenRun, h1]; simp
  · rw [thenRun, h2]; simp
  · rw [thenRun, h3]; simp
  · rw [thenRun, h4]; simp

/-- C5 restricted to the fulfillment continuation: the promise resolves
exactly when the internal manager has received both `itemEnd` calls, and
the resolution carries the result whose sources were handed to the
caller's `onLoad`. -/
theorem c5_aux (u1 u2 : String) (evs : List ImgEvent)
    (hwf1 : evs.count ImgEvent.searchLoad ≤ 1)
    (hwf2 : evs.count ImgEvent.areaLoad ≤ 1) :
    (∀ r, (thenRun u1 u2 evs).promise = PromiseState.resolved r →
      (thenRun u1 u2 evs).trace.count (Ev.intEnd KEY_SEARCH) = 1 ∧
      (thenRun u1 u2 evs).trace.count (Ev.intEnd KEY_AREA) = 1 ∧
      Ev.onLoadCb r.searchSrc r.areaSrc ∈ (thenRun u1 u2 evs).trace) ∧
    ((Ev.intEnd KEY_SEARCH ∈ (thenRun u1 u2 evs).trace ∧
      Ev.intEnd KEY_AREA ∈ (thenRun u1 u2 evs).trace) →
      ∃ r, (thenRun u1 u2 evs).promise = PromiseState.resolved r ∧
        Ev.onLoadCb r.searchSrc r.areaSrc ∈ (thenRun u1 u2 evs).trace) := by
  obtain ⟨hc1, hc2, hc3, hc4⟩ := thenRun_end_counts u1 u2 evs
  constructor
  · intro r hr
    rw [thenRun_promise] at hr
    by_cases hlen : 2 ≤ evs.length
    · rw [if_pos hlen] at hr
      have hre : resultPair u1 u2 = r := by injection hr
      subst hre
      have hlen' := imgEvents_length evs
      have hcnt : evs.count ImgEvent.searchLoad = 1 ∧
          evs.count ImgEvent.areaLoad = 1 := by omega
      refine ⟨by rw [hc2, hcnt.1], by rw [hc4, hcnt.2], ?_⟩
      have ho := thenRun_onLoad_count u1 u2 evs
      rw [if_pos hlen] at ho
      have hpos : 0 < (thenRun u1 u2 evs).trace.count
          (Ev.onLoadCb (some u1) (some u2)) := by
        rw [ho]; omega
      simpa [resultPair] using List.count_pos_iff.mp hpos
    · rw [if_neg hlen] at hr
      exact PromiseState.noConfusion hr
  · intro hm
    obtain ⟨hm1, hm2⟩ := hm
    have hp1 := List.count_pos_iff.mpr hm1
    have hp2 := List.count_pos_iff.mpr hm2
    rw [hc2] at hp1
    rw [hc4] at hp2
    have hlen : 2 ≤ evs.length := by
      rw [imgEvents_length]; omega
    refine ⟨resultPair u1 u2, by rw [thenRun_promise, if_pos hlen], ?_⟩
    have ho := thenRun_onLoad_count u1 u2 evs
    rw [if_pos hlen] at ho
    have hpos : 0 < (thenRun u1 u2 evs).trace.count
        (Ev.onLoadCb (some u1) (some u2)) := by
      rw [ho]; omega
    simpa [resultPair] using List.count_pos_iff.mp hpos

/-- C5 (resolution independence): in any well-behaved run, the returned
promise resolves exactly when the internal manager has received both
`itemEnd` calls; when it does, the caller's `onLoad` has been invoked
with the same result the promise resolves with.  The external manager's
state plays no role in the condition. -/
theorem c5_resolution (env : Env) (h : env.wf) :
    (∀ r, (load env).promise = PromiseState.resolved r →
      (load env).trace.count (Ev.intEnd KEY_SEARCH) = 1 ∧
      (load env).trace.count (Ev.intEnd KEY_AREA) = 1 ∧
      Ev.onLoadCb r.searchSrc r.areaSrc ∈ (load env).trace) ∧
    ((Ev.intEnd KEY_SEARCH ∈ (load env).trace ∧
      Ev.intEnd KEY_AREA ∈ (load env).trace) →
      ∃ r, (load env).promise = PromiseState.resolved r ∧
        Ev.onLoadCb r.searchSrc r.areaSrc ∈ (load env).trace) := by
  obtain ⟨hwf1, hwf2⟩ := h
  have hgz : ∀ k : String,
      (genOf env).trace.count (Ev.intEnd k) = 0 := by
    intro k
    rw [genOf_count env (Ev.intEnd k) rfl]
    exact count_eq_zero_of_all (by intro x hx; fin_cases hx <;> simp)
  rcases load_cases env with ⟨e, _, ht, hp, _⟩ | ⟨u1, u2, _, ht, hp, _⟩ |
    ⟨_, ht, hp, _⟩ | ⟨u1, u2, _, ht, hp, _⟩ | ⟨e, _, ht, hp, _⟩
  · constructor
    · intro r hr
      rw [hp] at hr
      exact PromiseState.noConfusion hr
    · intro hm
      rw [ht] at hm
      exact absurd hm.1 (by decide)
  · obtain ⟨haux1, haux2⟩ := c5_aux u1 u2 env.imageEvents hwf1 hwf2
    constructor
    · intro r hr
      rw [hp] at hr
      obtain ⟨hi1, hi2, him⟩ := haux1 r hr
      rw [ht]
      refine ⟨?_, ?_, List.mem_append.mpr (Or.inr him)⟩
      · rw [List.count_append, hi1]; decide
      · rw [List.count_append, hi2]; decide
    · intro hm
      rw [ht] at hm
      have hm1 : Ev.intEnd KEY_SEARCH ∈
          (thenRun u1 u2 env.imageEvents).trace := by
        rcases List.mem_append.mp hm.1 with hx | hx
        · exact absurd hx (by decide)
        · exact hx
      have hm2 : Ev.intEnd KEY_AREA ∈
          (thenRun u1 u2 env.imageEvents).trace := by
        rcases List.mem_append.mp hm.2 with hx | hx
        · exact absurd hx (by decide)
        · exact hx
      obtain ⟨r, hr, him⟩ := haux2 ⟨hm1, hm2⟩
      exact ⟨r, by rw [hp]; exact hr,
        by rw [ht]; exact List.mem_append.mpr (Or.inr him)⟩
  · constructor
    · intro r hr
      rw [hp] at hr
      exact PromiseState.noConfusion hr
    · intro hm
      rw [ht] at hm
      rcases List.mem_append.mp hm.1 with hx | hx
      · exact absurd hx (by decide)
      · exact absurd hx (List.count_eq_zero.mp (hgz KEY_SEARCH))
  · obtain ⟨haux1, haux2⟩ := c5_aux u1 u2 env.imageEvents hwf1 hwf2
    constructor
    · intro r hr
      rw [hp] at hr
      obtain ⟨hi1, hi2, him⟩ := haux1 r hr
      rw [ht]
      refine ⟨?_, ?_, ?_⟩
      · rw [List.count_append, List.count_append, hi1,
          hgz KEY_SEARCH]
        decide
      · rw [List.count_append, List.count_append, hi2, hgz KEY_AREA]
        decide
      · exact List.mem_append.mpr (Or.inr him)
    · intro hm
      rw [ht] at hm
      have hm1 : Ev.intEnd KEY_SEARCH ∈
          (thenRun u1 u2 env.imageEvents).trace := by
        rcases List.mem_append.mp hm.1 with hx | hx
        · rcases List.mem_append.mp hx with hy | hy
          · exact absurd hy (by decide)
          · exact absurd hy (List.count_eq_zero.mp (hgz KEY_SEARCH))
        · exact hx
      have hm2 : Ev.intEnd KEY_AREA ∈
          (thenRun u1 u2 env.imageEvents).trace := by
        rcases List.mem_append.mp hm.2 with hx | hx
        · rcases List.mem_append.mp hx with hy | hy
          · exact absurd hy (by decide)
          · exact absurd hy (List.count_eq_zero.mp (hgz KEY_AREA))
        · exact hx
      obtain ⟨r, hr, him⟩ := haux2 ⟨hm1, hm2⟩
      exact ⟨r, by rw [hp]; exact hr,
        by rw [ht]; exact List.mem_append.mpr (Or.inr him)⟩
  · constructor
    · intro r hr
      rw [hp] at hr
      exact PromiseState.noConfusion hr
    · intro hm
      rw [ht] at hm
      rcases List.mem_append.mp hm.1 with hx | hx
      · rcases List.mem_append.mp hx with hy | hy
        · exact absurd hy (by decide)
        · exact absurd hy (List.count_eq_zero.mp (hgz KEY_SEARCH))
      · exact absurd hx (by simp)

/-- Witness for C5 at a concrete cache-hit environment in which both
image load events fire: the promise resolves and `onLoad` was invoked
with the resolved result. -/
theorem c5_resolution_witness :
    envC5.wf ∧
    ((Ev.intEnd KEY_SEARCH ∈ (load envC5).trace ∧
        Ev.intEnd KEY_AREA ∈ (load envC5).trace) →
      ∃ r, (load envC5).promise = PromiseState.resolved r ∧
        Ev.onLoadCb r.searchSrc r.areaSrc ∈ (load envC5).trace) ∧
    ∃ r, (load envC5).promise = PromiseState.resolved r :=
  ⟨by constructor <;> decide,
    (c5_resolution envC5 (by constructor <;> decide)).2,
    resultPair "S" "A", by decide⟩

/-- C1 counterexample: on the error path the internal manager receives
its start call but no terminal call at all — `load()` completes a run in
which the internal tracker's "smaa-search" unit got exactly one start
and zero `end`/`error` calls, refuting "exactly one terminal call per
unit for each tracker on every call". -/
theorem c1_counterexample :
    (load envC1).trace.count (Ev.intStart KEY_SEARCH) = 1 ∧
    (load envC1).trace.count (Ev.intStart KEY_AREA) = 1 ∧
    (load envC1).trace.count (Ev.intEnd KEY_SEARCH) = 0 ∧
    (load envC1).trace.count (Ev.intError KEY_SEARCH) = 0 ∧
    (load envC1).trace.count (Ev.intEnd KEY_AREA) = 0 ∧
    (load envC1).trace.count (Ev.intError KEY_AREA) = 0 ∧
    (load envC1).promise = PromiseState.rejected "E" := by
  decide

/-- C1 as amended: in every well-behaved run each tracker receives
exactly one start call per unit; each tracker receives at most one
terminal call per unit — never both an `end` and an `error`; and when
the run resolves, every tracker/unit pair received exactly one `end`
and no `error`.  (On the rejection path the internal tracker receives
no terminal call, which is why "exactly one terminal" holds only for
resolving runs.) -/
theorem c1_amended (env : Env) (h : env.wf) :
    ((load env).trace.count (Ev.extStart KEY_SEARCH) = 1 ∧
      (load env).trace.count (Ev.extStart KEY_AREA) = 1 ∧
      (load env).trace.count (Ev.intStart KEY_SEARCH) = 1 ∧
      (load env).trace.count (Ev.intStart KEY_AREA) = 1) ∧
    ((load env).trace.count (Ev.extEnd KEY_SEARCH) +
        (load env).trace.count (Ev.extError KEY_SEARCH) ≤ 1 ∧
      (load env).trace.count (Ev.extEnd KEY_AREA) +
        (load env).trace.count (Ev.extError KEY_AREA) ≤ 1 ∧
      (load env).trace.count (Ev.intEnd KEY_SEARCH) +
        (load env).trace.count (Ev.intError KEY_SEARCH) ≤ 1 ∧
      (load env).trace.count (Ev.intEnd KEY_AREA) +
        (load env).trace.count (Ev.intError KEY_AREA) ≤ 1) ∧
    (∀ r, (load env).promise = PromiseState.resolved r →
      (load env).trace.count (Ev.extEnd KEY_SEARCH) = 1 ∧
      (load env).trace.count (Ev.intEnd KEY_SEARCH) = 1 ∧
      (load env).trace.count (Ev.extEnd KEY_AREA) = 1 ∧
      (load env).trace.count (Ev.intEnd KEY_AREA) = 1 ∧
      (load env).trace.count (Ev.extError KEY_SEARCH) = 0 ∧
      (load env).trace.count (Ev.extError KEY_AREA) = 0 ∧
      (load env).trace.count (Ev.intError KEY_SEARCH) = 0 ∧
      (load env).trace.count (Ev.intError KEY_AREA) = 0) := by
  obtain ⟨hwf1, hwf2⟩ := h
  have z1 : List.count (Ev.extEnd KEY_SEARCH) startEvents = 0 := by decide
  have z2 : List.count (Ev.intEnd KEY_SEARCH) startEvents = 0 := by decide
  have z3 : List.count (Ev.extEnd KEY_AREA) startEvents = 0 := by decide
  have z4 : List.count (Ev.intEnd KEY_AREA) startEvents = 0 := by decide
  have z5 : List.count (Ev.extError KEY_SEARCH) startEvents = 0 := by
    decide
  have z6 : List.count (Ev.extError KEY_AREA) startEvents = 0 := by
    decide
  have z7 : List.count (Ev.intError KEY_SEARCH) startEvents = 0 := by
    decide
  have z8 : List.count (Ev.intError KEY_AREA) startEvents = 0 := by
    decide
  have hgz : ∀ e : Ev, e.genStepEv = false →
      List.count e [Ev.createURL, Ev.spawnWorker, Ev.postMsg] = 0 →
      (genOf env).trace.count e = 0 := by
    intro e he h0
    rw [genOf_count env e he, h0]
  have g1 : (genOf env).trace.count (Ev.extEnd KEY_SEARCH) = 0 :=
    hgz _ rfl (by decide)
  have g2 : (genOf env).trace.count (Ev.intEnd KEY_SEARCH) = 0 :=
    hgz _ rfl (by decide)
  have g3 : (genOf env).trace.count (Ev.extEnd KEY_AREA) = 0 :=
    hgz _ rfl (by decide)
  have g4 : (genOf env).trace.count (Ev.intEnd KEY_AREA) = 0 :=
    hgz _ rfl (by decide)
  have g5 : (genOf env).trace.count (Ev.extError KEY_SEARCH) = 0 :=
    hgz _ rfl (by decide)
  have g6 : (genOf env).trace.count (Ev.extError KEY_AREA) = 0 :=
    hgz _ rfl (by decide)
  have g7 : (genOf env).trace.count (Ev.intError KEY_SEARCH) = 0 :=
    hgz _ rfl (by decide)
  have g8 : (genOf env).trace.count (Ev.intError KEY_AREA) = 0 :=
    hgz _ rfl (by decide)
  refine ⟨?_, ?_, ?_⟩
  · obtain ⟨rest, hrest, hz⟩ := load_trace_decomp env
    rw [hrest]
    have hzs1 := (hz KEY_SEARCH).1
    have hzs2 := (hz KEY_SEARCH).2
    have hza1 := (hz KEY_AREA).1
    have hza2 := (hz KEY_AREA).2
    refine ⟨?_, ?_, ?_, ?_⟩ <;>
      (simp +decide [List.count_append, List.count_cons, List.count_nil,
         startEvents]
       omega)
  · rcases load_cases env with ⟨e, _, ht, hp, _⟩ |
      ⟨u1, u2, _, ht, hp, _⟩ | ⟨_, ht, hp, _⟩ |
      ⟨u1, u2, _, ht, hp, _⟩ | ⟨e, _, ht, hp, _⟩
    · rw [ht]
      refine ⟨?_, ?_, ?_, ?_⟩ <;> decide
    · obtain ⟨he1, he2, he3, he4⟩ := thenRun_end_counts u1 u2
        env.imageEvents
      have t5 := thenRun_count_zero u1 u2 env.imageEvents
        (Ev.extError KEY_SEARCH) rfl (by simp) (by simp)
      have t6 := thenRun_count_zero u1 u2 env.imageEvents
        (Ev.extError KEY_AREA) rfl (by simp) (by simp)
      have t7 := thenRun_count_zero u1 u2 env.imageEvents
        (Ev.intError KEY_SEARCH) rfl (by simp) (by simp)
      have t8 := thenRun_count_zero u1 u2 env.imageEvents
        (Ev.intError KEY_AREA) rfl (by simp) (by simp)
      rw [ht]
      refine ⟨?_, ?_, ?_, ?_⟩ <;> (simp only [List.count_append]; omega)
    · rw [ht]
      refine ⟨?_, ?_, ?_, ?_⟩ <;> (simp only [List.count_append]; omega)
    · obtain ⟨he1, he2, he3, he4⟩ := thenRun_end_counts u1 u2
        env.imageEvents
      have t5 := thenRun_count_zero u1 u2 env.imageEvents
        (Ev.extError KEY_SEARCH) rfl (by simp) (by simp)
      have t6 := thenRun_count_zero u1 u2 env.imageEvents
        (Ev.extError KEY_AREA) rfl (by simp) (by simp)
      have t7 := thenRun_count_zero u1 u2 env.imageEvents
        (Ev.intError KEY_SEARCH) rfl (by simp) (by simp)
      have t8 := thenRun_count_zero u1 u2 env.imageEvents
        (Ev.intError KEY_AREA) rfl (by simp) (by simp)
      rw [ht]
      refine ⟨?_, ?_, ?_, ?_⟩ <;> (simp only [List.count_append]; omega)
    · have m1 : List.count (Ev.extEnd KEY_SEARCH)
          [Ev.extError KEY_SEARCH, Ev.extError KEY_AREA,
           Ev.onErrorCb e] = 0 :=
        count_eq_zero_of_all (by intro x hx; fin_cases hx <;> simp)
      have m2 : List.count (Ev.intEnd KEY_SEARCH)
          [Ev.extError KEY_SEARCH, Ev.extError KEY_AREA,
           Ev.onErrorCb e] = 0 :=
        count_eq_zero_of_all (by intro x hx; fin_cases hx <;> simp)
      have m3 : List.count (Ev.extEnd KEY_AREA)
          [Ev.extError KEY_SEARCH, Ev.extError KEY_AREA,
           Ev.onErrorCb e] = 0 :=
        count_eq_zero_of_all (by intro x hx; fin_cases hx <;> simp)
      have m4 : List.count (Ev.intEnd KEY_AREA)
          [Ev.extError KEY_SEARCH, Ev.extError KEY_AREA,
           Ev.onErrorCb e] = 0 :=
        count_eq_zero_of_all (by intro x hx; fin_cases hx <;> simp)
      have m5 : List.count (Ev.extError KEY_SEARCH)
          [Ev.extError KEY_SEARCH, Ev.extError KEY_AREA,
           Ev.onErrorCb e] = 1 := by
        simp +decide [List.count_cons, KEY_SEARCH, KEY_AREA]
      have m6 : List.count (Ev.extError KEY_AREA)
          [Ev.extError KEY_SEARCH, Ev.extError KEY_AREA,
           Ev.onErrorCb e] = 1 := by
        simp +decide [List.count_cons, KEY_SEARCH, KEY_AREA]
      have m7 : List.count (Ev.intError KEY_SEARCH)
          [Ev.extError KEY_SEARCH, Ev.extError KEY_AREA,
           Ev.onErrorCb e] = 0 :=
        count_eq_zero_of_all (by intro x hx; fin_cases hx <;> simp)
      have m8 : List.count (Ev.intError KEY_AREA)
          [Ev.extError KEY_SEARCH, Ev.extError KEY_AREA,
           Ev.onErrorCb e] = 0 :=
        count_eq_zero_of_all (by intro x hx; fin_cases hx <;> simp)
      rw [ht]
      refine ⟨?_, ?_, ?_, ?_⟩ <;> (simp only [List.count_append]; omega)
  · intro r hr
    rcases load_cases env with ⟨e, _, ht, hp, _⟩ |
      ⟨u1, u2, _, ht, hp, _⟩ | ⟨_, ht, hp, _⟩ |
      ⟨u1, u2, _, ht, hp, _⟩ | ⟨e, _, ht, hp, _⟩
    · rw [hp] at hr
      exact PromiseState.noConfusion hr
    · rw [hp, thenRun_promise] at hr
      by_cases hlen : 2 ≤ env.imageEvents.length
      · have hlen2 := imgEvents_length env.imageEvents
        obtain ⟨he1, he2, he3, he4⟩ := thenRun_end_counts u1 u2
          env.imageEvents
        have t5 := thenRun_count_zero u1 u2 env.imageEvents
          (Ev.extError KEY_SEARCH) rfl (by simp) (by simp)
        have t6 := thenRun_count_zero u1 u2 env.imageEvents
          (Ev.extError KEY_AREA) rfl (by simp) (by simp)
        have t7 := thenRun_count_zero u1 u2 env.imageEvents
          (Ev.intError KEY_SEARCH) rfl (by simp) (by simp)
        have t8 := thenRun_count_zero u1 u2 env.imageEvents
          (Ev.intError KEY_AREA) rfl (by simp) (by simp)
        rw [ht]
        refine ⟨?_, ?_, ?_, ?_, ?_, ?_, ?_, ?_⟩ <;>
          (simp only [List.count_append]; omega)
      · rw [if_neg hlen] at hr
        exact PromiseState.noConfusion hr
    · rw [hp] at hr
      exact PromiseState.noConfusion hr
    · rw [hp, thenRun_promise] at hr
      by_cases hlen : 2 ≤ env.imageEvents.length
      · have hlen2 := imgEvents_length env.imageEvents
        obtain ⟨he1, he2, he3, he4⟩ := thenRun_end_counts u1 u2
          env.imageEvents
        have t5 := thenRun_count_zero u1 u2 env.imageEvents
          (Ev.extError KEY_SEARCH) rfl (by simp) (by simp)
        have t6 := thenRun_count_zero u1 u2 env.imageEvents
          (Ev.extError KEY_AREA) rfl (by simp) (by simp)
        have t7 := thenRun_count_zero u1 u2 env.imageEvents
          (Ev.intError KEY_SEARCH) rfl (by simp) (by simp)
        have t8 := thenRun_count_zero u1 u2 env.imageEvents
          (Ev.intError KEY_AREA) rfl (by simp) (by simp)
        rw [ht]
        refine ⟨?_, ?_, ?_, ?_, ?_, ?_, ?_, ?_⟩ <;>
          (simp only [List.count_append]; omega)
      · rw [if_neg hlen] at hr
        exact PromiseState.noConfusion hr
    · rw [hp] at hr
      exact PromiseState.noConfusion hr

/-- Witness for the amended C1 at a concrete resolving run: every
tracker/unit pair received exactly one start and one `end`. -/
theorem c1_amended_witness :
    envC1w.wf ∧
    ((load envC1w).trace.count (Ev.extStart KEY_SEARCH) = 1 ∧
      (load envC1w).trace.count (Ev.extStart KEY_AREA) = 1 ∧
      (load envC1w).trace.count (Ev.intStart KEY_SEARCH) = 1 ∧
      (load envC1w).trace.count (Ev.intStart KEY_AREA) = 1) ∧
    (∀ r, (load envC1w).promise = PromiseState.resolved r →
      (load envC1w).trace.count (Ev.extEnd KEY_SEARCH) = 1 ∧
      (load envC1w).trace.count (Ev.intEnd KEY_SEARCH) = 1 ∧
      (load envC1w).trace.count (Ev.extEnd KEY_AREA) = 1 ∧
      (load envC1w).trace.count (Ev.intEnd KEY_AREA) = 1 ∧
      (load envC1w).trace.count (Ev.extError KEY_SEARCH) = 0 ∧
      (load envC1w).trace.count (Ev.extError KEY_AREA) = 0 ∧
      (load envC1w).trace.count (Ev.intError KEY_SEARCH) = 0 ∧
      (load envC1w).trace.count (Ev.intError KEY_AREA) = 0) :=
  ⟨by constructor <;> decide,
    (c1_amended envC1w (by constructor <;> decide)).1,
    (c1_amended envC1w (by constructor <;> decide)).2.2⟩

end SMAA
